import Mathlib

/-!
Shallow embedding of the worksheet helper library (text sanitization,
header validation, row/record-set matching) together with proofs about it.

The JavaScript string primitives used by the source (`replace(/[^a-zA-Z0-9\s]/g, "")`,
`replace(/\s+/g, " ")`, `toLocaleUpperCase` on the ASCII range, `trim`, `split`,
`includes`, `endsWith`) are modelled on `List Char`; absent/`undefined` string
values are modelled as `Option.none`, and JavaScript truthiness of a
`string | undefined` value excludes both `undefined` and `""`.
-/

/-- Code points matched by the JavaScript regex class `\s` (and trimmed by
`String.prototype.trim`): tab, line feed, vertical tab, form feed, carriage
return, space, no-break space, ogham space mark, the en-quad..hair-space block,
line/paragraph separators, narrow no-break space, medium mathematical space,
ideographic space and the BOM. -/
def jsSpaceCodes : List Nat :=
  [9, 10, 11, 12, 13, 32, 160, 5760, 8192, 8193, 8194, 8195, 8196, 8197, 8198,
   8199, 8200, 8201, 8202, 8232, 8233, 8239, 8287, 12288, 65279]

def isJsSpace (c : Char) : Bool := decide (c.toNat ∈ jsSpaceCodes)

/-- The character class `[a-zA-Z0-9]` of the sanitizer's special-character regex. -/
def isAsciiAlnum (c : Char) : Bool :=
  decide ((65 ≤ c.toNat ∧ c.toNat ≤ 90) ∨ (97 ≤ c.toNat ∧ c.toNat ≤ 122) ∨
    (48 ≤ c.toNat ∧ c.toNat ≤ 57))

/-- A character kept by `replace(/[^a-zA-Z0-9\s]/g, "")`. -/
def jsKeptChar (c : Char) : Bool := isAsciiAlnum c || isJsSpace c

/-- ASCII fragment of `toLocaleUpperCase`. -/
def jsToUpperChar (c : Char) : Char :=
  if 97 ≤ c.toNat ∧ c.toNat ≤ 122 then Char.ofNat (c.toNat - 32) else c

/-- `text.replace(/[^a-zA-Z0-9\s]/g, "")`. -/
def stripSpecialChars (l : List Char) : List Char := l.filter jsKeptChar

/-- Worker for `text.replace(/\s+/g, " ")`: the flag records whether the
previous character belonged to a whitespace run already replaced by `" "`. -/
def collapseWsAux : Bool → List Char → List Char
  | _, [] => []
  | prevSpace, c :: rest =>
    if isJsSpace c then
      if prevSpace then collapseWsAux true rest
      else ' ' :: collapseWsAux true rest
    else c :: collapseWsAux false rest

/-- `text.replace(/\s+/g, " ")`. -/
def collapseWs (l : List Char) : List Char := collapseWsAux false l

def dropTrailingWs (l : List Char) : List Char :=
  (l.reverse.dropWhile isJsSpace).reverse

/-- `text.trim()`. -/
def trimWs (l : List Char) : List Char := dropTrailingWs (l.dropWhile isJsSpace)

/-- The options object of `sanitizeText`.  A missing (`undefined`) field of the
JavaScript object is falsy, hence modelled by `false`. -/
structure SanitizeTextOpts where
  removeSpecialChars : Bool := false
  removeWhitespace : Bool := false
  uppercase : Bool := false
deriving DecidableEq

/-- The default value of the whole `opts` parameter of `sanitizeText`,
used when the caller omits the argument entirely. -/
def defaultSanitizeTextOpts : SanitizeTextOpts :=
  { removeSpecialChars := true, removeWhitespace := false, uppercase := true }

/-- The object literal `{ uppercase: true }` passed by `findMatchingRowByName`. -/
def uppercaseOnlyOpts : SanitizeTextOpts := { uppercase := true }

/-- The object literal `{ removeSpecialChars: false, removeWhitespace: false }`
passed by `findNextRecordSetRowByName` for combined name cells. -/
def noFlagsOpts : SanitizeTextOpts := {}

/-- The transformation pipeline of `sanitizeText` on a non-empty string:
optional special-character strip, then optional whitespace collapse, then
optional uppercasing, then an unconditional trim. -/
def sanitizeCore (opts : SanitizeTextOpts) (l : List Char) : List Char :=
  let s1 := if opts.removeSpecialChars then stripSpecialChars l else l
  let s2 := if opts.removeWhitespace then collapseWs s1 else s1
  let s3 := if opts.uppercase then s2.map jsToUpperChar else s2
  trimWs s3

/-- `sanitizeText` from `helpers`: returns `undefined` (here `none`) unless the
input is a truthy string, otherwise applies the pipeline of `sanitizeCore`. -/
def sanitizeText (text : Option String) (opts : SanitizeTextOpts) : Option String :=
  match text with
  | some s => if s = "" then none else some (String.mk (sanitizeCore opts s.data))
  | none => none

/-- `String.prototype.trim` at the `String` level (used on split name parts). -/
def jsTrimString (s : String) : String := String.mk (trimWs s.data)

/-- Worker for `String.prototype.split` with a non-empty separator.  The fuel
argument only serves structural termination; every step consumes at least one
input character, so fuel `l.length` is always enough. -/
def jsSplitCore (d : List Char) : Nat → List Char → List Char → List (List Char)
  | _, acc, [] => [acc.reverse]
  | 0, acc, rest => [acc.reverse ++ rest]
  | fuel + 1, acc, c :: rest =>
    if d.isPrefixOf (c :: rest) && !d.isEmpty then
      acc.reverse :: jsSplitCore d fuel [] (rest.drop (d.length - 1))
    else jsSplitCore d fuel (c :: acc) rest

/-- `s.split(delim)`. -/
def jsSplitString (s delim : String) : List String :=
  if delim = "" then s.data.map fun c => String.mk [c]
  else (jsSplitCore delim.data s.data.length [] s.data).map String.mk

/-- `l` has `sub` as a contiguous part, by scanning every start offset. -/
def jsIncludesL (l sub : List Char) : Bool :=
  (List.range (l.length + 1)).any fun i => sub.isPrefixOf (l.drop i)

/-- `s.includes(sub)`. -/
def jsIncludes (s sub : String) : Bool := jsIncludesL s.data sub.data

/-- `s.endsWith(suffixString)`. -/
def jsEndsWith (s sufStr : String) : Bool := sufStr.data.isSuffixOf s.data

/-! ## The worksheet object model (collaborator surface of the spreadsheet engine) -/

/-- Scalar cell contents; `value?.toString()` is `CellValue.toStringOpt`. -/
inductive CellValue where
  | null
  | str (s : String)
  | num (n : Int)
  | boolean (b : Bool)
deriving DecidableEq

def CellValue.toStringOpt : CellValue → Option String
  | .null => none
  | .str s => some s
  | .num n => some (toString n)
  | .boolean b => some (if b then "true" else "false")

/-- JavaScript truthiness of a cell value (`null`, `""`, `0` and `false` are falsy). -/
def CellValue.jsTruthy : CellValue → Bool
  | .null => false
  | .str s => s != ""
  | .num n => n != 0
  | .boolean b => b

structure Fill where
  fillType : String
  pattern : String
  fgColor : Option String
deriving DecidableEq

structure Style where
  fill : Option Fill
  font : Option String
  alignment : Option String
  border : Option String
deriving DecidableEq

/-- A `Partial<Style>`: an outer `none` field is absent from the object literal,
`some v` is a present key (whose value may itself be `undefined`/`none`). -/
structure StylePatch where
  fill : Option (Option Fill) := none
  font : Option (Option String) := none
  alignment : Option (Option String) := none
  border : Option (Option String) := none

/-- The object spread `{ ...style, ...patch }`: keys present in the patch win. -/
def Style.applyPatch (s : Style) (p : StylePatch) : Style :=
  { fill := p.fill.getD s.fill
    font := p.font.getD s.font
    alignment := p.alignment.getD s.alignment
    border := p.border.getD s.border }

structure CellNote where
  texts : List String
  editAs : String
deriving DecidableEq

structure Cell where
  value : CellValue
  text : String
  style : Style
  numFmt : Option String
  note : Option CellNote
deriving DecidableEq

structure Row where
  number : Nat
  cells : String → Cell

def Row.getCell (r : Row) (col : String) : Cell := r.cells col

structure Worksheet where
  cellAt : Nat → String → Cell

def Worksheet.getRow (ws : Worksheet) (n : Nat) : Row :=
  { number := n, cells := ws.cellAt n }

/-- The row window `start, start+1, …, start+count-1`. -/
def scanRows (ws : Worksheet) (start count : Nat) : List Row :=
  (List.range count).map fun i => ws.getRow (start + i)

/-- `worksheet.getRows(start, count)` of the spreadsheet engine: `undefined`
for a count below 1, otherwise the rows numbered `start … start+count-1`. -/
def Worksheet.getRows (ws : Worksheet) (start : Nat) (count : Int) : Option (List Row) :=
  if count < 1 then none else some (scanRows ws start count.toNat)

/-- `row.getCell(col).value?.toString()`, the lookup text every matcher reads. -/
def cellLookupText (row : Row) (col : String) : Option String :=
  (row.getCell col).value.toStringOpt

/-! ## `updateCell` -/

structure UpdateCellOpts where
  overwrite : Option Bool := none
  style : Option StylePatch := none
  fillColor : Option String := none
  removeFillColor : Option Bool := none
  numFmt : Option String := none
  note : Option String := none

/-- `updateCell` from `data`: honours `opts.overwrite ?? true`, then sets the
value and applies style, fill colour, fill removal, number format and note. -/
def updateCell (cell : Cell) (value : CellValue) (opts : Option UpdateCellOpts) : Cell :=
  let overwrite := (opts.bind fun o => o.overwrite).getD true
  if !overwrite && cell.value.jsTruthy && cell.value != CellValue.str "" then cell
  else
    let c1 : Cell := { cell with value := value }
    let c2 : Cell :=
      match opts.bind fun o => o.style with
      | some p => { c1 with style := c1.style.applyPatch p }
      | none => c1
    let c3 : Cell :=
      match opts.bind fun o => o.fillColor with
      | some fc =>
        if fc != "" then
          { c2 with style :=
            { c2.style with
              fill := some { fillType := "pattern", pattern := "solid", fgColor := some fc } } }
        else c2
      | none => c2
    let c4 : Cell :=
      if (opts.bind fun o => o.removeFillColor).getD false then
        { c3 with style :=
          { c3.style with
            fill := some { fillType := "pattern", pattern := "none", fgColor := none } } }
      else c3
    let c5 : Cell :=
      match opts.bind fun o => o.numFmt with
      | some f => if f != "" then { c4 with numFmt := some f } else c4
      | none => c4
    match opts.bind fun o => o.note with
    | some t =>
      if t != "" then { c5 with note := some { texts := [t], editAs := "oneCells" } } else c5
    | none => c5

/-! ## `validateColumns` -/

structure ColumnToBeValidated where
  column : String
  label : String

/-- The label as displayed in a validation error (`"(No label)"` for `""`). -/
def displayedLabel (label : String) : String :=
  if label = "" then "(No label)" else label

/-- `typeof cell.value === "string" ? cell.value : cell.text`. -/
def headerCellText (cell : Cell) : String :=
  match cell.value with
  | .str s => s
  | _ => cell.text

def templateValidationErrorMsg (col : ColumnToBeValidated) (cellText : String) : String :=
  "TEMPLATE VALIDATION ERROR: Expected column " ++ displayedLabel col.label ++
    " in column " ++ col.column ++ " but found " ++ cellText

/-- Whether a configured column's header cell passes validation. -/
def columnOk (headerRow : Row) (col : ColumnToBeValidated) : Prop :=
  sanitizeText (some (headerCellText (headerRow.getCell col.column))) defaultSanitizeTextOpts =
    sanitizeText (some col.label) defaultSanitizeTextOpts

instance (headerRow : Row) (col : ColumnToBeValidated) : Decidable (columnOk headerRow col) := by
  unfold columnOk
  infer_instance

/-- `validateColumns` from `validation`: throws (models as `Except.error`) on the
first configured column whose sanitized header text differs from the sanitized
expected label. -/
def validateColumns (headerRow : Row) : List ColumnToBeValidated → Except String Unit
  | [] => Except.ok ()
  | col :: rest =>
    let cellText := headerCellText (headerRow.getCell col.column)
    if sanitizeText (some cellText) defaultSanitizeTextOpts ≠
        sanitizeText (some col.label) defaultSanitizeTextOpts then
      Except.error (templateValidationErrorMsg col cellText)
    else validateColumns headerRow rest

/-! ## `findMatchingRowById` and `findNextRecordSetRowById` -/

structure FindSimilarIdOpts where
  findSimilarMatchWithLastDigits : Bool := false

/-- Exact strategy of `findMatchingRowById`: sanitized id equals sanitized
lookup-column text. -/
def idExactPred (id lookupCol : String) (row : Row) : Bool :=
  sanitizeText (some id) defaultSanitizeTextOpts ==
    sanitizeText (cellLookupText row lookupCol) defaultSanitizeTextOpts

/-- Predicate strategy of `findMatchingRowById`: truthy sanitized lookup value
satisfying `lookupCondition`. -/
def idCondPred (cond : String → Bool) (lookupCol : String) (row : Row) : Bool :=
  match sanitizeText (cellLookupText row lookupCol) defaultSanitizeTextOpts with
  | some s => s != "" && cond s
  | none => false

/-- Suffix strategy of `findMatchingRowById`: sanitized lookup value ends with
the raw (unsanitized) `id`. -/
def idSuffixPred (id lookupCol : String) (row : Row) : Bool :=
  match sanitizeText (cellLookupText row lookupCol) defaultSanitizeTextOpts with
  | some s => jsEndsWith s id
  | none => false

/-- Strategy cascade of `findMatchingRowById` over the retrieved rows. -/
def findMatchingRowByIdOnRows (rows : List Row) (id lookupCol : String)
    (lookupCondition : Option (String → Bool)) (opts : FindSimilarIdOpts) : Option Row :=
  match rows.find? (idExactPred id lookupCol) with
  | some r => some r
  | none =>
    match lookupCondition with
    | some cond => rows.find? (idCondPred cond lookupCol)
    | none =>
      if opts.findSimilarMatchWithLastDigits then rows.find? (idSuffixPred id lookupCol)
      else none

/-- `findMatchingRowById` from `data`.  Note that the source passes
`lastRowNumber` as the second (`count`) argument of `worksheet.getRows`. -/
def findMatchingRowById (ws : Worksheet) (startRowNumber lastRowNumber : Nat)
    (id lookupCol : String) (lookupCondition : Option (String → Bool))
    (opts : FindSimilarIdOpts) : Option Row :=
  match ws.getRows startRowNumber (lastRowNumber : Int) with
  | none => none
  | some rows => findMatchingRowByIdOnRows rows id lookupCol lookupCondition opts

/-- Row acceptance test of `findNextRecordSetRowById`: a falsy sanitized id is an
automatic hit, otherwise the sanitized id must equal `id` (with a redundant
`endsWith` conjunct under the similar-match option). -/
def nextByIdPred (id lookupCol : String) (opts : FindSimilarIdOpts) (row : Row) : Bool :=
  match sanitizeText (cellLookupText row lookupCol) defaultSanitizeTextOpts with
  | none => true
  | some currentRowId =>
    if currentRowId = "" then true
    else
      currentRowId == id &&
        (if opts.findSimilarMatchWithLastDigits then jsEndsWith currentRowId id else true)

/-- `findNextRecordSetRowById` from `data`. -/
def findNextRecordSetRowById (ws : Worksheet) (startRowNumber lastRowNumber : Nat)
    (id lookupCol : String) (opts : FindSimilarIdOpts) : Option Row :=
  match ws.getRows startRowNumber (lastRowNumber : Int) with
  | none => none
  | some rows => rows.find? (nextByIdPred id lookupCol opts)

/-! ## Name matching -/

inductive NameOrder where
  | firstNameLastName
  | lastNameFirstName
deriving DecidableEq

/-- The two shapes of the `lookupCols` configuration. -/
inductive NameLookupCols where
  | separateCols (firstName lastName : String)
  | combinedCol (name : String) (order : NameOrder) (delimiter : Option String)

structure NameValue where
  firstName : Option String
  lastName : Option String

structure SanitizedNameValue where
  lastName : Option String
  firstName : Option String

def sanitizedCandidates (nameValues : List NameValue) : List SanitizedNameValue :=
  nameValues.map fun nv =>
    { lastName := sanitizeText nv.lastName uppercaseOnlyOpts
      firstName := sanitizeText nv.firstName uppercaseOnlyOpts }

/-- JavaScript falsiness of a `string | undefined` value. -/
def optFalsy : Option String → Bool
  | none => true
  | some s => s == ""

/-- Row (last name, first name) derivation used by `findMatchingRowByName`:
sanitization with `{ uppercase: true }` throughout, split parts re-sanitized. -/
def rowNamesForMatch (lookupCols : NameLookupCols) (row : Row) :
    Option String × Option String :=
  match lookupCols with
  | .separateCols firstCol lastCol =>
    (sanitizeText (cellLookupText row lastCol) uppercaseOnlyOpts,
     sanitizeText (cellLookupText row firstCol) uppercaseOnlyOpts)
  | .combinedCol nameCol ord delim =>
    match sanitizeText (cellLookupText row nameCol) uppercaseOnlyOpts with
    | some currentRowName =>
      if currentRowName = "" then (none, none)
      else
        let nameArray := jsSplitString currentRowName (delim.getD " ")
        if nameArray.length > 1 then
          match ord with
          | .firstNameLastName =>
            (sanitizeText (nameArray.get? 1) uppercaseOnlyOpts,
             sanitizeText (nameArray.get? 0) uppercaseOnlyOpts)
          | .lastNameFirstName =>
            (sanitizeText (nameArray.get? 0) uppercaseOnlyOpts,
             sanitizeText (nameArray.get? 1) uppercaseOnlyOpts)
        else (none, none)
    | none => (none, none)

/-- Exact pass of `findMatchingRowByName`. -/
def exactNameMatchPred (snv : List SanitizedNameValue) (lookupCols : NameLookupCols)
    (row : Row) : Bool :=
  let names := rowNamesForMatch lookupCols row
  if optFalsy names.1 || optFalsy names.2 then false
  else snv.any fun nv => names.1 == nv.lastName && names.2 == nv.firstName

/-- Similar pass of `findMatchingRowByName` (mutual containment). -/
def similarNameMatchPred (snv : List SanitizedNameValue) (lookupCols : NameLookupCols)
    (row : Row) : Bool :=
  let names := rowNamesForMatch lookupCols row
  match names.1, names.2 with
  | some wsLast, some wsFirst =>
    if wsLast == "" || wsFirst == "" then false
    else
      snv.any fun nv =>
        match nv.lastName, nv.firstName with
        | some nvLast, some nvFirst =>
          nvLast != "" && nvFirst != "" &&
            ((jsIncludes wsLast nvLast && jsIncludes wsFirst nvFirst) ||
              (jsIncludes nvLast wsLast && jsIncludes nvFirst wsFirst))
        | _, _ => false
  | _, _ => false

/-- Two-pass cascade of `findMatchingRowByName` over the retrieved rows. -/
def findMatchingRowByNameOnRows (rows : List Row) (snv : List SanitizedNameValue)
    (lookupCols : NameLookupCols) (findSimilarMatchOpt : Option Bool) : Option Row :=
  match rows.find? (exactNameMatchPred snv lookupCols) with
  | some r => some r
  | none =>
    if findSimilarMatchOpt.getD true then rows.find? (similarNameMatchPred snv lookupCols)
    else none

/-- `findMatchingRowByName` from `data`: exact pass first, then (under
`opts?.findSimilarMatch ?? true`) the mutual-containment pass. -/
def findMatchingRowByName (ws : Worksheet) (startRowNumber lastRowNumber : Nat)
    (nameValues : List NameValue) (lookupCols : NameLookupCols)
    (findSimilarMatchOpt : Option Bool) : Option Row :=
  match ws.getRows startRowNumber (lastRowNumber : Int) with
  | none => none
  | some rows =>
    findMatchingRowByNameOnRows rows (sanitizedCandidates nameValues) lookupCols
      findSimilarMatchOpt

/-! ## Record-set boundary functions -/

/-- Break test of `findLastRowInRecordSet`: the first row satisfying it ends the
record set one row earlier. -/
def recordSetBreakPred (lookupCol : String) (lookupValue : Option String)
    (lookupCondition : Option (String → Bool)) (row : Row) : Bool :=
  let currentRowValue := sanitizeText (cellLookupText row lookupCol) defaultSanitizeTextOpts
  match lookupCondition with
  | some cond =>
    match currentRowValue with
    | none => true
    | some s => s == "" || !cond s
  | none => currentRowValue != lookupValue

/-- Break handling of `findLastRowInRecordSet` over the retrieved rows. -/
def findLastRowInRecordSetOnRows (ws : Worksheet) (lastRowNumber : Nat)
    (lookupCol : String) (lookupValue : Option String)
    (lookupCondition : Option (String → Bool)) (rows : List Row) : Option Row :=
  match rows.find? (recordSetBreakPred lookupCol lookupValue lookupCondition) with
  | some r => some (ws.getRow (r.number - 1))
  | none => some (ws.getRow lastRowNumber)

/-- `findLastRowInRecordSet` from `data` (this one converts `lastRowNumber`
to a count correctly). -/
def findLastRowInRecordSet (ws : Worksheet) (startRowNumber lastRowNumber : Nat)
    (lookupCol : String) (lookupValue : Option String)
    (lookupCondition : Option (String → Bool)) : Option Row :=
  match ws.getRows startRowNumber ((lastRowNumber : Int) - (startRowNumber : Int) + 1) with
  | none => none
  | some rows =>
    findLastRowInRecordSetOnRows ws lastRowNumber lookupCol lookupValue lookupCondition rows

/-- Row (last name, first name) derivation used by `findNextRecordSetRowByName`:
separate columns use the default sanitization, a combined cell is sanitized with
`{ removeSpecialChars: false, removeWhitespace: false }` and split parts are
merely trimmed. -/
def rowNamesForNext (lookupCols : NameLookupCols) (row : Row) :
    Option String × Option String :=
  match lookupCols with
  | .separateCols firstCol lastCol =>
    (sanitizeText (cellLookupText row lastCol) defaultSanitizeTextOpts,
     sanitizeText (cellLookupText row firstCol) defaultSanitizeTextOpts)
  | .combinedCol nameCol ord delim =>
    match sanitizeText (cellLookupText row nameCol) noFlagsOpts with
    | some currentRowName =>
      if currentRowName = "" then (none, none)
      else
        let nameArray := jsSplitString currentRowName (delim.getD " ")
        if nameArray.length > 1 then
          match ord with
          | .firstNameLastName =>
            ((nameArray.get? 1).map jsTrimString, (nameArray.get? 0).map jsTrimString)
          | .lastNameFirstName =>
            ((nameArray.get? 0).map jsTrimString, (nameArray.get? 1).map jsTrimString)
        else (none, none)
    | none => (none, none)

structure RowCondition where
  col : String
  condition : Cell → Bool

/-- Row acceptance test of `findNextRecordSetRowByName`: an undecomposable
identity is an automatic hit; otherwise the identity must differ from the seed's
and every extra per-column condition must hold. -/
def nextByNamePred (current : Option String × Option String)
    (lookupCols : NameLookupCols) (conditions : Option (List RowCondition))
    (row : Row) : Bool :=
  let next := rowNamesForNext lookupCols row
  if optFalsy next.1 || optFalsy next.2 then true
  else
    (next.1 != current.1 || next.2 != current.2) &&
      (match conditions with
       | some cs => cs.all fun c => c.condition (row.getCell c.col)
       | none => true)

/-- `findNextRecordSetRowByName` from `data`. -/
def findNextRecordSetRowByName (ws : Worksheet) (startRowNumber lastRowNumber : Nat)
    (lookupCols : NameLookupCols) (conditions : Option (List RowCondition)) : Option Row :=
  let startRow := ws.getRow startRowNumber
  let current := rowNamesForNext lookupCols startRow
  match ws.getRows startRow.number (lastRowNumber : Int) with
  | none => none
  | some rows => rows.find? (nextByNamePred current lookupCols conditions)

/-! ## Concrete worksheets used as witnesses and counterexamples -/

def plainStyle : Style :=
  { fill := none, font := none, alignment := none, border := none }

/-- A cell holding the plain text `s`. -/
def strCell (s : String) : Cell :=
  { value := CellValue.str s, text := s, style := plainStyle, numFmt := none, note := none }

/-- An empty cell (`value` is `null`). -/
def blankCell : Cell :=
  { value := CellValue.null, text := "", style := plainStyle, numFmt := none, note := none }

/-- Only row 4 carries the id `"7"` in column A; rows 2 and 3 are blank. -/
def wsIdRangeDemo : Worksheet :=
  { cellAt := fun n col => if n = 4 ∧ col = "A" then strCell "7" else blankCell }

/-- Row 2 carries the id `"7"` in column A. -/
def wsIdStrategyDemo : Worksheet :=
  { cellAt := fun n col => if n = 2 ∧ col = "A" then strCell "7" else blankCell }

/-- Rows 1 and 2 carry id `"100"`, row 3 carries id `"200"` in column A. -/
def wsNextByIdDemo : Worksheet :=
  { cellAt := fun n col =>
      if col = "A" then
        if n = 1 ∨ n = 2 then strCell "100"
        else if n = 3 then strCell "200"
        else blankCell
      else blankCell }

/-- Rows 1 and 2 hold `"DOE JOHN"`, row 3 holds `"SMITH ANN"` in column A. -/
def wsNextByNameDemo : Worksheet :=
  { cellAt := fun n col =>
      if col = "A" then
        if n = 1 ∨ n = 2 then strCell "DOE JOHN"
        else if n = 3 then strCell "SMITH ANN"
        else blankCell
      else blankCell }

/-- Row 2 holds the combined name `"DOE, JOHN"` in column A. -/
def wsNameMatchDemo : Worksheet :=
  { cellAt := fun n col => if n = 2 ∧ col = "A" then strCell "DOE, JOHN" else blankCell }

/-- Row 1 holds first name `"ANN"` in column A and last name `"OBRIEN"` in column B. -/
def wsObrienDemo : Worksheet :=
  { cellAt := fun n col =>
      if n = 1 then
        if col = "A" then strCell "ANN"
        else if col = "B" then strCell "OBRIEN"
        else blankCell
      else blankCell }

/-- Rows 5–9 share id `"100"` and row 10 holds id `"200"` in column A. -/
def wsRecordSetDemo : Worksheet :=
  { cellAt := fun n col =>
      if col = "A" then
        if 5 ≤ n ∧ n ≤ 9 then strCell "100"
        else if n = 10 then strCell "200"
        else blankCell
      else blankCell }

/-- Only row 4 holds a name (first `"JOHN"` in column A, last `"DOE"` in column B). -/
def wsNameRangeDemo : Worksheet :=
  { cellAt := fun n col =>
      if n = 4 then
        if col = "A" then strCell "JOHN"
        else if col = "B" then strCell "DOE"
        else blankCell
      else blankCell }

/-- A header row with `"NAME"` in column A and `"AGE"` in column B. -/
def headerRowDemo : Row :=
  { number := 1
    cells := fun col =>
      if col = "A" then strCell "NAME"
      else if col = "B" then strCell "AGE"
      else blankCell }

/-! ## Invariant predicates used by the sanitizer proofs -/

/-- Whether a character list starts with a JavaScript whitespace character. -/
def headIsSpace : List Char → Bool
  | [] => false
  | c :: _ => isJsSpace c

/-- No two adjacent JavaScript whitespace characters. -/
def noSpaceRun : List Char → Bool
  | [] => true
  | c :: t => (!(isJsSpace c && headIsSpace t)) && noSpaceRun t

/-- Every JavaScript whitespace character in the list is a plain space. -/
def spacesOk (l : List Char) : Bool := l.all fun c => !isJsSpace c || c == ' '

/-! ## Basic lemmas -/

theorem getRows_pos (ws : Worksheet) (start : Nat) (c : Int) (h : 1 ≤ c) :
    ws.getRows start c = some (scanRows ws start c.toNat) := by
  unfold Worksheet.getRows
  rw [if_neg (by omega)]

theorem getRow_number (ws : Worksheet) (n : Nat) : (ws.getRow n).number = n := rfl

theorem jsToUpperChar_toNat (c : Char) :
    (jsToUpperChar c).toNat =
      if 97 ≤ c.toNat ∧ c.toNat ≤ 122 then c.toNat - 32 else c.toNat := by
  unfold jsToUpperChar
  by_cases h : 97 ≤ c.toNat ∧ c.toNat ≤ 122
  · rw [if_pos h, if_pos h]
    have hv : (c.toNat - 32).isValidChar := Or.inl (by omega)
    unfold Char.ofNat
    rw [dif_pos hv]
    rfl
  · rw [if_neg h, if_neg h]

theorem jsToUpperChar_eq_self (c : Char) (h : ¬(97 ≤ c.toNat ∧ c.toNat ≤ 122)) :
    jsToUpperChar c = c := by
  unfold jsToUpperChar
  rw [if_neg h]

theorem not_isJsSpace_of_alnum_range (c : Char) (h : 48 ≤ c.toNat ∧ c.toNat ≤ 122) :
    isJsSpace c = false := by
  apply decide_eq_false
  intro hm
  simp only [jsSpaceCodes, List.mem_cons, List.not_mem_nil, or_false] at hm
  omega

theorem isJsSpace_jsToUpperChar (c : Char) : isJsSpace (jsToUpperChar c) = isJsSpace c := by
  by_cases h : 97 ≤ c.toNat ∧ c.toNat ≤ 122
  · have h1 : isJsSpace (jsToUpperChar c) = false := by
      apply not_isJsSpace_of_alnum_range
      rw [jsToUpperChar_toNat, if_pos h]
      omega
    have h2 : isJsSpace c = false := not_isJsSpace_of_alnum_range c (by omega)
    rw [h1, h2]
  · rw [jsToUpperChar_eq_self c h]

theorem jsToUpperChar_of_space (c : Char) (h : isJsSpace c = true) : jsToUpperChar c = c := by
  apply jsToUpperChar_eq_self
  intro hc
  have h2 := not_isJsSpace_of_alnum_range c (by omega)
  rw [h2] at h
  exact Bool.false_ne_true h

theorem jsToUpperChar_idem (c : Char) : jsToUpperChar (jsToUpperChar c) = jsToUpperChar c := by
  by_cases h : 97 ≤ c.toNat ∧ c.toNat ≤ 122
  · apply jsToUpperChar_eq_self
    rw [jsToUpperChar_toNat, if_pos h]
    omega
  · rw [jsToUpperChar_eq_self c h]
    exact jsToUpperChar_eq_self c h

theorem isAsciiAlnum_iff (c : Char) : isAsciiAlnum c = true ↔
    ((65 ≤ c.toNat ∧ c.toNat ≤ 90) ∨ (97 ≤ c.toNat ∧ c.toNat ≤ 122) ∨
      (48 ≤ c.toNat ∧ c.toNat ≤ 57)) :=
  decide_eq_true_iff

theorem jsKeptChar_jsToUpperChar (c : Char) (h : jsKeptChar c = true) :
    jsKeptChar (jsToUpperChar c) = true := by
  unfold jsKeptChar at h ⊢
  simp only [Bool.or_eq_true] at h ⊢
  rcases h with ha | hs
  · left
    rw [isAsciiAlnum_iff] at ha ⊢
    rw [jsToUpperChar_toNat]
    by_cases hl : 97 ≤ c.toNat ∧ c.toNat ≤ 122
    · rw [if_pos hl]; omega
    · rw [if_neg hl]; omega
  · right
    rw [jsToUpperChar_of_space c hs]
    exact hs

theorem jsKeptChar_space : jsKeptChar ' ' = true := by decide

theorem isJsSpace_space : isJsSpace ' ' = true := by decide

theorem spacesOk_collapseWsAux : ∀ (l : List Char) (b : Bool),
    spacesOk (collapseWsAux b l) = true := by
  intro l
  induction l with
  | nil => intro b; rfl
  | cons c t ih =>
    intro b
    have h1 := ih true
    have h2 := ih false
    by_cases hc : isJsSpace c = true <;> cases b <;>
      simp_all [collapseWsAux, spacesOk, List.all_cons]

theorem noSpaceRun_collapseWsAux : ∀ (l : List Char) (b : Bool),
    noSpaceRun (collapseWsAux b l) = true ∧
      (b = true → headIsSpace (collapseWsAux b l) = false) := by
  intro l
  induction l with
  | nil => intro b; exact ⟨rfl, fun _ => rfl⟩
  | cons c t ih =>
    intro b
    by_cases hc : isJsSpace c = true
    · cases b
      · refine ⟨?_, fun h => by cases h⟩
        have ha1 := (ih true).1
        have ha2 := (ih true).2 rfl
        simp only [collapseWsAux, hc, if_true, Bool.false_eq_true, if_false]
        simp [noSpaceRun, ha1, ha2]
      · refine ⟨?_, fun _ => ?_⟩
        · simpa only [collapseWsAux, hc, if_true] using (ih true).1
        · simpa only [collapseWsAux, hc, if_true] using (ih true).2 rfl
    · have hcf : isJsSpace c = false := by
        rw [← Bool.not_eq_true]; exact hc
      constructor
      · simp only [collapseWsAux, hcf, Bool.false_eq_true, if_false]
        simp [noSpaceRun, hcf, headIsSpace, (ih false).1]
      · intro _
        simp only [collapseWsAux, hcf, Bool.false_eq_true, if_false]
        simp [headIsSpace, hcf]

theorem collapseWsAux_eq_self : ∀ l : List Char, spacesOk l = true → noSpaceRun l = true →
    collapseWsAux false l = l ∧ (headIsSpace l = false → collapseWsAux true l = l) := by
  intro l
  induction l with
  | nil => intro _ _; exact ⟨rfl, fun _ => rfl⟩
  | cons c t ih =>
    intro hs hr
    have hs' : spacesOk t = true := by
      simp only [spacesOk, List.all_cons, Bool.and_eq_true] at hs
      exact hs.2
    have hr' : noSpaceRun t = true := by
      simp only [noSpaceRun, Bool.and_eq_true] at hr
      exact hr.2
    obtain ⟨ih1, ih2⟩ := ih hs' hr'
    by_cases hc : isJsSpace c = true
    · have hcs : c = ' ' := by
        simp only [spacesOk, List.all_cons, Bool.and_eq_true, Bool.or_eq_true,
          Bool.not_eq_true', hc] at hs
        rcases hs.1 with h | h
        · cases h
        · exact beq_iff_eq.mp h
      have hht : headIsSpace t = false := by
        simp only [noSpaceRun, Bool.and_eq_true, hc, Bool.not_eq_true', true_and,
          Bool.and_eq_false_iff] at hr
        rcases hr.1 with h | h
        · cases h
        · exact h
      constructor
      · simp only [collapseWsAux, hc, if_true, Bool.false_eq_true, if_false]
        rw [ih2 hht, hcs]
      · intro hh
        rw [headIsSpace, hc] at hh
        cases hh
    · have hcf : isJsSpace c = false := by rw [← Bool.not_eq_true]; exact hc
      constructor
      · simp only [collapseWsAux, hcf, Bool.false_eq_true, if_false]
        rw [ih1]
      · intro _
        simp only [collapseWsAux, hcf, Bool.false_eq_true, if_false]
        rw [ih1]

theorem collapseWs_eq_self (l : List Char) (hs : spacesOk l = true)
    (hr : noSpaceRun l = true) : collapseWs l = l :=
  (collapseWsAux_eq_self l hs hr).1

theorem mem_of_mem_dropWhile {p : Char → Bool} {l : List Char} {c : Char}
    (h : c ∈ l.dropWhile p) : c ∈ l :=
  List.Sublist.mem h (List.dropWhile_sublist p)

theorem mem_of_mem_dropTrailingWs {l : List Char} {c : Char}
    (h : c ∈ dropTrailingWs l) : c ∈ l := by
  unfold dropTrailingWs at h
  rw [List.mem_reverse] at h
  have h2 := mem_of_mem_dropWhile h
  rwa [List.mem_reverse] at h2

theorem mem_of_mem_trimWs {l : List Char} {c : Char} (h : c ∈ trimWs l) : c ∈ l := by
  unfold trimWs at h
  exact mem_of_mem_dropWhile (mem_of_mem_dropTrailingWs h)

theorem mem_collapseWsAux : ∀ (l : List Char) (b : Bool) (c : Char),
    c ∈ collapseWsAux b l → c = ' ' ∨ c ∈ l := by
  intro l
  induction l with
  | nil =>
    intro b c h
    simp [collapseWsAux] at h
  | cons a t ih =>
    intro b c h
    by_cases ha : isJsSpace a = true
    · cases b
      · simp only [collapseWsAux, ha, if_true, Bool.false_eq_true, if_false] at h
        rcases List.mem_cons.mp h with h1 | h2
        · exact Or.inl h1
        · rcases ih true c h2 with h3 | h4
          · exact Or.inl h3
          · exact Or.inr (List.mem_cons_of_mem a h4)
      · simp only [collapseWsAux, ha, if_true] at h
        rcases ih true c h with h3 | h4
        · exact Or.inl h3
        · exact Or.inr (List.mem_cons_of_mem a h4)
    · have haf : isJsSpace a = false := by rw [← Bool.not_eq_true]; exact ha
      simp only [collapseWsAux, haf, Bool.false_eq_true, if_false] at h
      rcases List.mem_cons.mp h with h1 | h2
      · exact Or.inr (h1 ▸ List.mem_cons_self a t)
      · rcases ih false c h2 with h3 | h4
        · exact Or.inl h3
        · exact Or.inr (List.mem_cons_of_mem a h4)

theorem exists_append_dropTrailingWs (l : List Char) :
    dropTrailingWs l ++ (l.reverse.takeWhile isJsSpace).reverse = l := by
  unfold dropTrailingWs
  rw [← List.reverse_append, List.takeWhile_append_dropWhile, List.reverse_reverse]

theorem noSpaceRun_append_left : ∀ (l1 l2 : List Char),
    noSpaceRun (l1 ++ l2) = true → noSpaceRun l1 = true := by
  intro l1
  induction l1 with
  | nil => intro _ _; rfl
  | cons c t ih =>
    intro l2 h
    simp only [List.cons_append, noSpaceRun, Bool.and_eq_true] at h ⊢
    obtain ⟨h1, h2⟩ := h
    refine ⟨?_, ih l2 h2⟩
    cases t with
    | nil => simp [headIsSpace]
    | cons d t' =>
      simpa only [List.cons_append, headIsSpace] using h1

theorem noSpaceRun_tail {c : Char} {t : List Char} (h : noSpaceRun (c :: t) = true) :
    noSpaceRun t = true := by
  simp only [noSpaceRun, Bool.and_eq_true] at h
  exact h.2

theorem noSpaceRun_dropWhile (p : Char → Bool) : ∀ l : List Char,
    noSpaceRun l = true → noSpaceRun (l.dropWhile p) = true := by
  intro l
  induction l with
  | nil => intro _; rfl
  | cons c t ih =>
    intro h
    rw [List.dropWhile_cons]
    by_cases hc : p c = true
    · rw [if_pos hc]
      exact ih (noSpaceRun_tail h)
    · rw [if_neg hc]
      exact h

theorem noSpaceRun_dropTrailingWs (l : List Char) (h : noSpaceRun l = true) :
    noSpaceRun (dropTrailingWs l) = true := by
  apply noSpaceRun_append_left (dropTrailingWs l) (l.reverse.takeWhile isJsSpace).reverse
  rw [exists_append_dropTrailingWs l]
  exact h

theorem noSpaceRun_trimWs (l : List Char) (h : noSpaceRun l = true) :
    noSpaceRun (trimWs l) = true :=
  noSpaceRun_dropTrailingWs _ (noSpaceRun_dropWhile _ _ h)

theorem spacesOk_of_mem_subset {l l' : List Char} (hsub : ∀ c ∈ l', c ∈ l)
    (h : spacesOk l = true) : spacesOk l' = true := by
  rw [spacesOk, List.all_eq_true] at h ⊢
  exact fun c hc => h c (hsub c hc)

theorem spacesOk_trimWs {l : List Char} (h : spacesOk l = true) :
    spacesOk (trimWs l) = true :=
  spacesOk_of_mem_subset (fun _ hc => mem_of_mem_trimWs hc) h

theorem headIsSpace_map_jsToUpperChar (l : List Char) :
    headIsSpace (l.map jsToUpperChar) = headIsSpace l := by
  cases l with
  | nil => rfl
  | cons c t => simp [headIsSpace, isJsSpace_jsToUpperChar]

theorem noSpaceRun_map_jsToUpperChar : ∀ l : List Char, noSpaceRun l = true →
    noSpaceRun (l.map jsToUpperChar) = true := by
  intro l
  induction l with
  | nil => intro _; rfl
  | cons c t ih =>
    intro h
    simp only [List.map_cons, noSpaceRun, Bool.and_eq_true] at h ⊢
    obtain ⟨h1, h2⟩ := h
    refine ⟨?_, ih h2⟩
    rw [isJsSpace_jsToUpperChar, headIsSpace_map_jsToUpperChar]
    exact h1

theorem spacesOk_map_jsToUpperChar (l : List Char) (h : spacesOk l = true) :
    spacesOk (l.map jsToUpperChar) = true := by
  rw [spacesOk, List.all_eq_true] at h ⊢
  intro c hc
  rw [List.mem_map] at hc
  obtain ⟨d, hd, rfl⟩ := hc
  have hp := h d hd
  simp only [Bool.or_eq_true, Bool.not_eq_true'] at hp ⊢
  rcases hp with hp | hp
  · left
    rw [isJsSpace_jsToUpperChar]
    exact hp
  · right
    have hde : d = ' ' := beq_iff_eq.mp hp
    subst hde
    rw [jsToUpperChar_of_space ' ' isJsSpace_space]
    exact hp

theorem dropWhile_head_false (p : Char → Bool) : ∀ (l : List Char) {c : Char} {t : List Char},
    l.dropWhile p = c :: t → p c = false := by
  intro l
  induction l with
  | nil =>
    intro c t h
    simp [List.dropWhile] at h
  | cons a l' ih =>
    intro c t h
    rw [List.dropWhile_cons] at h
    by_cases ha : p a = true
    · rw [if_pos ha] at h
      exact ih h
    · rw [if_neg ha] at h
      injection h with h1 _
      subst h1
      rw [← Bool.not_eq_true]
      exact ha

theorem dropWhile_eq_self_of_head (p : Char → Bool) (l : List Char)
    (h : ∀ c t, l = c :: t → p c = false) : l.dropWhile p = l := by
  cases l with
  | nil => rfl
  | cons c t =>
    rw [List.dropWhile_cons, if_neg]
    simp [h c t rfl]

theorem trimWs_idem (l : List Char) : trimWs (trimWs l) = trimWs l := by
  have key : ∀ (z : List Char) (c : Char) (t : List Char), dropTrailingWs z = c :: t →
      ∃ t', z = c :: t' := by
    intro z c t h
    have hd := exists_append_dropTrailingWs z
    rw [h] at hd
    exact ⟨t ++ (z.reverse.takeWhile isJsSpace).reverse, hd.symm⟩
  have h1 : (trimWs l).dropWhile isJsSpace = trimWs l := by
    apply dropWhile_eq_self_of_head
    intro c t h
    obtain ⟨t', ht'⟩ := key (l.dropWhile isJsSpace) c t h
    exact dropWhile_head_false isJsSpace l ht'
  have h2 : dropTrailingWs (trimWs l) = trimWs l := by
    have h3 : (trimWs l).reverse = (l.dropWhile isJsSpace).reverse.dropWhile isJsSpace := by
      unfold trimWs dropTrailingWs
      rw [List.reverse_reverse]
    have h4 : (trimWs l).reverse.dropWhile isJsSpace = (trimWs l).reverse := by
      apply dropWhile_eq_self_of_head
      intro c t h
      rw [h3] at h
      exact dropWhile_head_false isJsSpace ((l.dropWhile isJsSpace).reverse) h
    unfold dropTrailingWs
    rw [h4, List.reverse_reverse]
  show dropTrailingWs ((trimWs l).dropWhile isJsSpace) = trimWs l
  rw [h1, h2]

theorem kept_of_mem_sanitizeCore (opts : SanitizeTextOpts) (h : opts.removeSpecialChars = true)
    (l : List Char) (c : Char) (hc : c ∈ sanitizeCore opts l) : jsKeptChar c = true := by
  simp only [sanitizeCore, h, if_true] at hc
  have hc3 := mem_of_mem_trimWs hc
  have keptMid : ∀ d, d ∈ (if opts.removeWhitespace then collapseWs (stripSpecialChars l)
      else stripSpecialChars l) → jsKeptChar d = true := by
    intro d hd
    by_cases hw : opts.removeWhitespace = true
    · rw [if_pos hw] at hd
      rcases mem_collapseWsAux (stripSpecialChars l) false d hd with h1 | h2
      · subst h1; exact jsKeptChar_space
      · exact (List.mem_filter.mp h2).2
    · rw [if_neg hw] at hd
      exact (List.mem_filter.mp hd).2
  by_cases hu : opts.uppercase = true
  · rw [if_pos hu] at hc3
    rw [List.mem_map] at hc3
    obtain ⟨d, hd, rfl⟩ := hc3
    exact jsKeptChar_jsToUpperChar d (keptMid d hd)
  · rw [if_neg hu] at hc3
    exact keptMid c hc3

theorem good_of_sanitizeCore (opts : SanitizeTextOpts) (h : opts.removeWhitespace = true)
    (l : List Char) :
    spacesOk (sanitizeCore opts l) = true ∧ noSpaceRun (sanitizeCore opts l) = true := by
  simp only [sanitizeCore, h, if_true]
  have hcol1 : spacesOk (collapseWs (if opts.removeSpecialChars then stripSpecialChars l
      else l)) = true := spacesOk_collapseWsAux _ false
  have hcol2 : noSpaceRun (collapseWs (if opts.removeSpecialChars then stripSpecialChars l
      else l)) = true := (noSpaceRun_collapseWsAux _ false).1
  by_cases hu : opts.uppercase = true
  · rw [if_pos hu]
    exact ⟨spacesOk_trimWs (spacesOk_map_jsToUpperChar _ hcol1),
           noSpaceRun_trimWs _ (noSpaceRun_map_jsToUpperChar _ hcol2)⟩
  · rw [if_neg hu]
    exact ⟨spacesOk_trimWs hcol1, noSpaceRun_trimWs _ hcol2⟩

theorem upperFixed_of_mem_sanitizeCore (opts : SanitizeTextOpts) (h : opts.uppercase = true)
    (l : List Char) (c : Char) (hc : c ∈ sanitizeCore opts l) : jsToUpperChar c = c := by
  simp only [sanitizeCore, h, if_true] at hc
  have hc3 := mem_of_mem_trimWs hc
  rw [List.mem_map] at hc3
  obtain ⟨d, _, rfl⟩ := hc3
  exact jsToUpperChar_idem d

theorem trimWs_sanitizeCore (opts : SanitizeTextOpts) (l : List Char) :
    trimWs (sanitizeCore opts l) = sanitizeCore opts l := by
  simp only [sanitizeCore]
  exact trimWs_idem _

theorem sanitizeCore_idem (opts : SanitizeTextOpts) (l : List Char) :
    sanitizeCore opts (sanitizeCore opts l) = sanitizeCore opts l := by
  have e1 : (if opts.removeSpecialChars then stripSpecialChars (sanitizeCore opts l)
      else sanitizeCore opts l) = sanitizeCore opts l := by
    by_cases h : opts.removeSpecialChars = true
    · rw [if_pos h]
      exact List.filter_eq_self.mpr fun c hc => kept_of_mem_sanitizeCore opts h l c hc
    · rw [if_neg h]
  have e2 : (if opts.removeWhitespace then collapseWs (sanitizeCore opts l)
      else sanitizeCore opts l) = sanitizeCore opts l := by
    by_cases h : opts.removeWhitespace = true
    · rw [if_pos h]
      obtain ⟨hs, hr⟩ := good_of_sanitizeCore opts h l
      exact collapseWs_eq_self _ hs hr
    · rw [if_neg h]
  have e3 : (if opts.uppercase then (sanitizeCore opts l).map jsToUpperChar
      else sanitizeCore opts l) = sanitizeCore opts l := by
    by_cases h : opts.uppercase = true
    · rw [if_pos h]
      have hfix : ∀ c ∈ sanitizeCore opts l, jsToUpperChar c = id c := fun c hc =>
        upperFixed_of_mem_sanitizeCore opts h l c hc
      rw [List.map_congr_left hfix, List.map_id]
    · rw [if_neg h]
  calc sanitizeCore opts (sanitizeCore opts l)
      = trimWs (if opts.uppercase then
          (if opts.removeWhitespace then
            collapseWs (if opts.removeSpecialChars then stripSpecialChars (sanitizeCore opts l)
              else sanitizeCore opts l)
           else (if opts.removeSpecialChars then stripSpecialChars (sanitizeCore opts l)
              else sanitizeCore opts l)).map jsToUpperChar
        else (if opts.removeWhitespace then
            collapseWs (if opts.removeSpecialChars then stripSpecialChars (sanitizeCore opts l)
              else sanitizeCore opts l)
           else (if opts.removeSpecialChars then stripSpecialChars (sanitizeCore opts l)
              else sanitizeCore opts l))) := rfl
    _ = sanitizeCore opts l := by
        rw [e1, e2, e3]
        exact trimWs_sanitizeCore opts l

theorem natCast_toNat (n : Nat) : ((n : Int)).toNat = n := by omega

theorem findMatchingRowById_eq_onRows (ws : Worksheet) (startRowNumber lastRowNumber : Nat)
    (id lookupCol : String) (lookupCondition : Option (String → Bool))
    (opts : FindSimilarIdOpts) (h : 1 ≤ lastRowNumber) :
    findMatchingRowById ws startRowNumber lastRowNumber id lookupCol lookupCondition opts =
      findMatchingRowByIdOnRows (scanRows ws startRowNumber lastRowNumber) id lookupCol
        lookupCondition opts := by
  unfold findMatchingRowById
  rw [getRows_pos ws startRowNumber _ (by omega), natCast_toNat]

theorem findMatchingRowByName_eq_onRows (ws : Worksheet) (startRowNumber lastRowNumber : Nat)
    (nameValues : List NameValue) (lookupCols : NameLookupCols)
    (findSimilarMatchOpt : Option Bool) (h : 1 ≤ lastRowNumber) :
    findMatchingRowByName ws startRowNumber lastRowNumber nameValues lookupCols
        findSimilarMatchOpt =
      findMatchingRowByNameOnRows (scanRows ws startRowNumber lastRowNumber)
        (sanitizedCandidates nameValues) lookupCols findSimilarMatchOpt := by
  unfold findMatchingRowByName
  rw [getRows_pos ws startRowNumber _ (by omega), natCast_toNat]

theorem findLastRowInRecordSet_eq_onRows (ws : Worksheet) (startRowNumber lastRowNumber : Nat)
    (lookupCol : String) (lookupValue : Option String)
    (lookupCondition : Option (String → Bool)) (h : startRowNumber ≤ lastRowNumber) :
    findLastRowInRecordSet ws startRowNumber lastRowNumber lookupCol lookupValue
        lookupCondition =
      findLastRowInRecordSetOnRows ws lastRowNumber lookupCol lookupValue lookupCondition
        (scanRows ws startRowNumber (lastRowNumber - startRowNumber + 1)) := by
  unfold findLastRowInRecordSet
  rw [getRows_pos ws startRowNumber _ (by omega)]
  have hc : ((lastRowNumber : Int) - (startRowNumber : Int) + 1).toNat =
      lastRowNumber - startRowNumber + 1 := by omega
  rw [hc]

theorem findNextRecordSetRowById_eq_onRows (ws : Worksheet) (startRowNumber lastRowNumber : Nat)
    (id lookupCol : String) (opts : FindSimilarIdOpts) (h : 1 ≤ lastRowNumber) :
    findNextRecordSetRowById ws startRowNumber lastRowNumber id lookupCol opts =
      (scanRows ws startRowNumber lastRowNumber).find? (nextByIdPred id lookupCol opts) := by
  unfold findNextRecordSetRowById
  rw [getRows_pos ws startRowNumber _ (by omega), natCast_toNat]

theorem findNextRecordSetRowByName_eq_onRows (ws : Worksheet) (startRowNumber lastRowNumber : Nat)
    (lookupCols : NameLookupCols) (conditions : Option (List RowCondition))
    (h : 1 ≤ lastRowNumber) :
    findNextRecordSetRowByName ws startRowNumber lastRowNumber lookupCols conditions =
      (scanRows ws startRowNumber lastRowNumber).find?
        (nextByNamePred (rowNamesForNext lookupCols (ws.getRow startRowNumber))
          lookupCols conditions) := by
  show (match ws.getRows startRowNumber (lastRowNumber : Int) with
    | none => none
    | some rows =>
      rows.find? (nextByNamePred (rowNamesForNext lookupCols (ws.getRow startRowNumber))
        lookupCols conditions)) =
    (scanRows ws startRowNumber lastRowNumber).find?
      (nextByNamePred (rowNamesForNext lookupCols (ws.getRow startRowNumber))
        lookupCols conditions)
  rw [getRows_pos ws startRowNumber _ (by omega), natCast_toNat]

theorem validateColumns_ok_iff (headerRow : Row) : ∀ cols : List ColumnToBeValidated,
    validateColumns headerRow cols = Except.ok () ↔ ∀ c ∈ cols, columnOk headerRow c := by
  intro cols
  induction cols with
  | nil => simp [validateColumns]
  | cons c rest ih =>
    simp only [validateColumns]
    by_cases h : sanitizeText (some (headerCellText (headerRow.getCell c.column)))
        defaultSanitizeTextOpts ≠ sanitizeText (some c.label) defaultSanitizeTextOpts
    · rw [if_pos h]
      constructor
      · intro he
        simp at he
      · intro hall
        exact absurd (hall c (List.mem_cons_self c rest)) h
    · rw [if_neg h]
      have heq : columnOk headerRow c := not_not.mp h
      rw [ih]
      constructor
      · intro hall c' hc'
        rcases List.mem_cons.mp hc' with hh | hmem
        · subst hh
          exact heq
        · exact hall c' hmem
      · intro hall c' hc'
        exact hall c' (List.mem_cons_of_mem c hc')

theorem validateColumns_error_at (headerRow : Row) : ∀ (pre : List ColumnToBeValidated)
    (c : ColumnToBeValidated) (post : List ColumnToBeValidated),
    (∀ c' ∈ pre, columnOk headerRow c') → ¬columnOk headerRow c →
    validateColumns headerRow (pre ++ c :: post) =
      Except.error (templateValidationErrorMsg c (headerCellText (headerRow.getCell c.column))) := by
  intro pre
  induction pre with
  | nil =>
    intro c post _ hc
    simp only [List.nil_append, validateColumns]
    have hc' : sanitizeText (some (headerCellText (headerRow.getCell c.column)))
        defaultSanitizeTextOpts ≠ sanitizeText (some c.label) defaultSanitizeTextOpts := hc
    rw [if_pos hc']
  | cons c0 pre' ih =>
    intro c post hpre hc
    simp only [List.cons_append, validateColumns]
    have h0 : columnOk headerRow c0 := hpre c0 (List.mem_cons_self c0 pre')
    have h0' : ¬(sanitizeText (some (headerCellText (headerRow.getCell c0.column)))
        defaultSanitizeTextOpts ≠ sanitizeText (some c0.label) defaultSanitizeTextOpts) :=
      not_not_intro h0
    rw [if_neg h0']
    exact ih c post (fun x hx => hpre x (List.mem_cons_of_mem c0 hx)) hc

theorem templateValidationErrorMsg_parts (c : ColumnToBeValidated) (t : String) :
    (∃ p q, templateValidationErrorMsg c t = p ++ c.label ++ q) ∧
    (∃ p q, templateValidationErrorMsg c t = p ++ t ++ q) := by
  constructor
  · by_cases h : c.label = ""
    · refine ⟨templateValidationErrorMsg c t, "", ?_⟩
      rw [h]
      simp
    · refine ⟨"TEMPLATE VALIDATION ERROR: Expected column ",
        " in column " ++ c.column ++ " but found " ++ t, ?_⟩
      simp [templateValidationErrorMsg, displayedLabel, h, String.append_assoc]
  · refine ⟨"TEMPLATE VALIDATION ERROR: Expected column " ++ displayedLabel c.label ++
      " in column " ++ c.column ++ " but found ", "", ?_⟩
    simp [templateValidationErrorMsg, String.append_assoc]

/-! ## Claim theorems -/

/-- C7 counterexample: strict idempotence fails at `" "` under default options —
the first sanitization yields `""`, and re-sanitizing `""` yields `undefined`
(the truthiness guard of `sanitizeText` rejects the empty string). -/
theorem sanitizeText_idem_counterexample :
    sanitizeText (sanitizeText (some " ") defaultSanitizeTextOpts) defaultSanitizeTextOpts ≠
      sanitizeText (some " ") defaultSanitizeTextOpts ∧
    sanitizeText (some " ") defaultSanitizeTextOpts = some "" ∧
    sanitizeText (sanitizeText (some " ") defaultSanitizeTextOpts) defaultSanitizeTextOpts =
      none := by
  decide

/-- C7 (amended): `sanitizeText` is idempotent under every fixed option setting
except when the first sanitization yields the empty string, in which case
re-sanitizing yields `undefined` instead. -/
theorem sanitizeText_idem_of_ne_empty (x : Option String) (opts : SanitizeTextOpts)
    (h : sanitizeText x opts ≠ some "") :
    sanitizeText (sanitizeText x opts) opts = sanitizeText x opts := by
  match x with
  | none => rfl
  | some s =>
    by_cases hs : s = ""
    · subst hs
      rfl
    · have hval : sanitizeText (some s) opts = some (String.mk (sanitizeCore opts s.data)) := by
        simp [sanitizeText, hs]
      rw [hval] at h ⊢
      have hne : String.mk (sanitizeCore opts s.data) ≠ "" := by
        intro hh
        exact h (by rw [hh])
      show (if String.mk (sanitizeCore opts s.data) = "" then none
        else some (String.mk (sanitizeCore opts
          (String.mk (sanitizeCore opts s.data)).data))) =
        some (String.mk (sanitizeCore opts s.data))
      rw [if_neg hne]
      show some (String.mk (sanitizeCore opts (sanitizeCore opts s.data))) = _
      rw [sanitizeCore_idem]

theorem sanitizeText_idem_of_ne_empty_witness :
    sanitizeText (some "ab") defaultSanitizeTextOpts ≠ some "" ∧
    sanitizeText (sanitizeText (some "ab") defaultSanitizeTextOpts) defaultSanitizeTextOpts =
      sanitizeText (some "ab") defaultSanitizeTextOpts :=
  ⟨by decide, sanitizeText_idem_of_ne_empty (some "ab") defaultSanitizeTextOpts (by decide)⟩

/-- C8: `sanitizeText` applies its transformations in the fixed order
special-character strip → whitespace collapse → uppercase → unconditional trim,
its omitted-argument defaults are `removeSpecialChars = true`,
`removeWhitespace = false`, `uppercase = true`, and the two concrete examples of
the specification evaluate as stated. -/
theorem sanitizeText_order_and_defaults :
    defaultSanitizeTextOpts =
      { removeSpecialChars := true, removeWhitespace := false, uppercase := true } ∧
    (∀ (s : String) (opts : SanitizeTextOpts),
      sanitizeText (some s) opts =
        if s = "" then none
        else some (String.mk (trimWs (
          if opts.uppercase then
            (if opts.removeWhitespace then
              collapseWs (if opts.removeSpecialChars then stripSpecialChars s.data else s.data)
             else (if opts.removeSpecialChars then stripSpecialChars s.data
              else s.data)).map jsToUpperChar
          else (if opts.removeWhitespace then
              collapseWs (if opts.removeSpecialChars then stripSpecialChars s.data else s.data)
             else (if opts.removeSpecialChars then stripSpecialChars s.data else s.data)))))) ∧
    sanitizeText (some " a-b_c ") defaultSanitizeTextOpts = some "ABC" ∧
    sanitizeText (some "a   b")
      { removeSpecialChars := false, removeWhitespace := true, uppercase := false } =
      some "a b" :=
  ⟨rfl, fun _ _ => rfl, by decide, by decide⟩

/-- C9: `validateColumns` succeeds exactly when every configured column's
sanitized header text equals its sanitized expected label; it raises on the
first mismatching configured column in array order (later columns are never
reached), and the error message embeds both the expected label and the actual
observed cell text. -/
theorem validateColumns_claim (headerRow : Row) (cols : List ColumnToBeValidated) :
    (validateColumns headerRow cols = Except.ok () ↔ ∀ c ∈ cols, columnOk headerRow c) ∧
    (∀ (pre : List ColumnToBeValidated) (c : ColumnToBeValidated)
        (post : List ColumnToBeValidated),
      cols = pre ++ c :: post → (∀ c' ∈ pre, columnOk headerRow c') →
      ¬columnOk headerRow c →
      validateColumns headerRow cols =
        Except.error
          (templateValidationErrorMsg c (headerCellText (headerRow.getCell c.column)))) ∧
    (∀ (c : ColumnToBeValidated) (t : String),
      (∃ p q, templateValidationErrorMsg c t = p ++ c.label ++ q) ∧
      (∃ p q, templateValidationErrorMsg c t = p ++ t ++ q)) := by
  refine ⟨validateColumns_ok_iff headerRow cols, ?_, templateValidationErrorMsg_parts⟩
  intro pre c post hcols hpre hc
  rw [hcols]
  exact validateColumns_error_at headerRow pre c post hpre hc

theorem validateColumns_claim_witness :
    validateColumns headerRowDemo
      [{ column := "A", label := "NAME" }, { column := "B", label := "AGE" }] =
      Except.ok () ∧
    validateColumns headerRowDemo [{ column := "B", label := "GRADE" }] =
      Except.error (templateValidationErrorMsg { column := "B", label := "GRADE" } "AGE") ∧
    (∃ p q,
      templateValidationErrorMsg { column := "B", label := "GRADE" } "AGE" =
        p ++ "GRADE" ++ q) := by
  refine ⟨?_, ?_, ?_⟩
  · exact (validateColumns_claim headerRowDemo _).1.mpr (by decide)
  · exact (validateColumns_claim headerRowDemo
      [{ column := "B", label := "GRADE" }]).2.1 [] { column := "B", label := "GRADE" } []
      rfl (by simp) (by decide)
  · exact ((validateColumns_claim headerRowDemo []).2.2 { column := "B", label := "GRADE" }
      "AGE").1

/-- C10: with `overwrite = false` and a truthy current value, `updateCell`
returns immediately and leaves every attribute of the cell unchanged; the
occupancy test is JavaScript truthiness, so a cell currently holding `0` or
`false` counts as empty and its value IS overwritten even with
`overwrite = false`. -/
theorem updateCell_overwrite_guard :
    (∀ (cell : Cell) (value : CellValue) (o : UpdateCellOpts),
      o.overwrite = some false → cell.value.jsTruthy = true →
      updateCell cell value (some o) = cell) ∧
    (∀ (cell : Cell) (value : CellValue) (o : UpdateCellOpts),
      o.overwrite = some false →
      (cell.value = CellValue.num 0 ∨ cell.value = CellValue.boolean false) →
      (updateCell cell value (some o)).value = value) := by
  constructor
  · intro cell value o ho ht
    have hcond : (!((some o).bind fun o => o.overwrite).getD true && cell.value.jsTruthy &&
        (cell.value != CellValue.str "")) = true := by
      have hov : ((some o).bind fun o => o.overwrite).getD true = false := by
        simp [Option.bind, ho]
      rw [hov]
      cases hv : cell.value with
      | null => rw [hv] at ht; simp [CellValue.jsTruthy] at ht
      | str s =>
        rw [hv] at ht
        simp only [CellValue.jsTruthy] at ht
        have hs : ¬s = "" := by simpa using ht
        simp [CellValue.jsTruthy, bne_iff_ne, hs]
      | num n =>
        rw [hv] at ht
        simp only [CellValue.jsTruthy] at ht
        have hn : ¬n = 0 := by simpa using ht
        simp [CellValue.jsTruthy, bne_iff_ne, hn]
      | boolean b =>
        rw [hv] at ht
        simp only [CellValue.jsTruthy] at ht
        simp [CellValue.jsTruthy, bne_iff_ne, ht]
    simp only [updateCell]
    rw [if_pos hcond]
  · intro cell value o ho hv
    have hcond : (!((some o).bind fun o => o.overwrite).getD true && cell.value.jsTruthy &&
        (cell.value != CellValue.str "")) = false := by
      rcases hv with h | h <;> rw [h] <;> simp [CellValue.jsTruthy]
    have hcond' : ¬((!((some o).bind fun o => o.overwrite).getD true && cell.value.jsTruthy &&
        (cell.value != CellValue.str "")) = true) := by
      rw [hcond]
      simp
    simp only [updateCell]
    rw [if_neg hcond']
    rcases o with ⟨ov, ost, ofc, orf, onf, ont⟩
    cases ost <;> cases ofc <;> cases orf <;> cases onf <;> cases ont <;>
      simp only [Option.bind] <;> split_ifs <;> rfl

theorem updateCell_overwrite_guard_witness :
    ({ overwrite := some false } : UpdateCellOpts).overwrite = some false ∧
    (strCell "busy").value.jsTruthy = true ∧
    updateCell (strCell "busy") (CellValue.str "new") (some { overwrite := some false }) =
      strCell "busy" ∧
    (updateCell { strCell "x" with value := CellValue.num 0 } (CellValue.str "new")
        (some { overwrite := some false })).value = CellValue.str "new" := by
  refine ⟨rfl, by decide, ?_, ?_⟩
  · exact updateCell_overwrite_guard.1 (strCell "busy") (CellValue.str "new")
      { overwrite := some false } rfl (by decide)
  · exact updateCell_overwrite_guard.2 { strCell "x" with value := CellValue.num 0 }
      (CellValue.str "new") { overwrite := some false } rfl (Or.inl rfl)

/-- C1 counterexample: with the claimed range [2,3], no row in that range
matches and both fallbacks are off, so the claim predicts no row; the code
nevertheless returns row 4 because it passes `lastRowNumber` as the `count`
argument of `getRows` and scans rows 2–4. -/
theorem findMatchingRowById_claim_counterexample :
    (findMatchingRowById wsIdRangeDemo 2 3 "7" "A" none {}).map Row.number = some 4 ∧
    sanitizeText (cellLookupText (wsIdRangeDemo.getRow 2) "A") defaultSanitizeTextOpts =
      none ∧
    sanitizeText (cellLookupText (wsIdRangeDemo.getRow 3) "A") defaultSanitizeTextOpts =
      none ∧
    sanitizeText (some "7") defaultSanitizeTextOpts = some "7" ∧
    3 < 4 :=
  ⟨by decide, by decide, by decide, by decide, by decide⟩

/-- C1 (amended): over the row window the function actually scans — rows
`startRowNumber … startRowNumber + lastRowNumber - 1`, because the source
passes `lastRowNumber` as the `count` argument of `getRows` — the strategies
of `findMatchingRowById` apply in fixed order with the first hit winning:
first sanitized-exact match; else, when `lookupCondition` is supplied, the
first row with a truthy sanitized value satisfying it; else, when the
similar-match option is enabled, the first row whose sanitized value ends with
the raw unsanitized `id`; else no row. -/
theorem findMatchingRowById_strategy_order (ws : Worksheet)
    (startRowNumber lastRowNumber : Nat) (id lookupCol : String)
    (lookupCondition : Option (String → Bool)) (opts : FindSimilarIdOpts)
    (h : 1 ≤ lastRowNumber) :
    (∀ r, (scanRows ws startRowNumber lastRowNumber).find? (idExactPred id lookupCol) =
        some r →
      findMatchingRowById ws startRowNumber lastRowNumber id lookupCol lookupCondition opts =
        some r) ∧
    ((scanRows ws startRowNumber lastRowNumber).find? (idExactPred id lookupCol) = none →
      ∀ cond, lookupCondition = some cond →
      findMatchingRowById ws startRowNumber lastRowNumber id lookupCol lookupCondition opts =
        (scanRows ws startRowNumber lastRowNumber).find? (idCondPred cond lookupCol)) ∧
    ((scanRows ws startRowNumber lastRowNumber).find? (idExactPred id lookupCol) = none →
      lookupCondition = none → opts.findSimilarMatchWithLastDigits = true →
      findMatchingRowById ws startRowNumber lastRowNumber id lookupCol lookupCondition opts =
        (scanRows ws startRowNumber lastRowNumber).find? (idSuffixPred id lookupCol)) ∧
    ((scanRows ws startRowNumber lastRowNumber).find? (idExactPred id lookupCol) = none →
      lookupCondition = none → opts.findSimilarMatchWithLastDigits = false →
      findMatchingRowById ws startRowNumber lastRowNumber id lookupCol lookupCondition opts =
        none) := by
  refine ⟨?_, ?_, ?_, ?_⟩
  · intro r hr
    rw [findMatchingRowById_eq_onRows ws startRowNumber lastRowNumber id lookupCol
      lookupCondition opts h]
    unfold findMatchingRowByIdOnRows
    rw [hr]
  · intro hnone cond hcond
    rw [findMatchingRowById_eq_onRows ws startRowNumber lastRowNumber id lookupCol
      lookupCondition opts h]
    unfold findMatchingRowByIdOnRows
    rw [hnone, hcond]
  · intro hnone hcond hsim
    rw [findMatchingRowById_eq_onRows ws startRowNumber lastRowNumber id lookupCol
      lookupCondition opts h]
    unfold findMatchingRowByIdOnRows
    rw [hnone, hcond, if_pos hsim]
  · intro hnone hcond hsim
    rw [findMatchingRowById_eq_onRows ws startRowNumber lastRowNumber id lookupCol
      lookupCondition opts h]
    unfold findMatchingRowByIdOnRows
    rw [hnone, hcond, if_neg (by rw [hsim]; simp)]

theorem findMatchingRowById_strategy_order_witness :
    1 ≤ 3 ∧
    (findMatchingRowById wsIdStrategyDemo 2 3 "7" "A" none {}).map Row.number = some 2 := by
  constructor
  · decide
  · have h := (findMatchingRowById_strategy_order wsIdStrategyDemo 2 3 "7" "A" none {}
      (by decide)).1 (wsIdStrategyDemo.getRow 2) (by rfl)
    rw [h]
    rfl

/-- C2 (code bug demonstration): `findNextRecordSetRowById` accepts the first
row whose sanitized id EQUALS the seed id (or is empty) — here the seed row
itself, returned as row 1 — although its own documentation says it searches for
the next row that does **not** match the id, and row 3 with the different id
`"200"` exists in range; `findNextRecordSetRowByName` by contrast returns the
first row whose derived identity differs from the seed's, as the claim states. -/
theorem findNextRecordSetRowById_returns_matching_row :
    (findNextRecordSetRowById wsNextByIdDemo 1 3 "100" "A" {}).map Row.number = some 1 ∧
    sanitizeText (cellLookupText (wsNextByIdDemo.getRow 1) "A") defaultSanitizeTextOpts =
      some "100" ∧
    sanitizeText (cellLookupText (wsNextByIdDemo.getRow 3) "A") defaultSanitizeTextOpts =
      some "200" ∧
    (findNextRecordSetRowByName wsNextByNameDemo 1 3
      (NameLookupCols.combinedCol "A" NameOrder.lastNameFirstName none) none).map
      Row.number = some 3 :=
  ⟨by decide, by decide, by decide, by decide⟩

/-- C3: `findMatchingRowByName` scans its row window in two passes: pass 1
returns the first row whose derived names exactly equal some sanitized
candidate's names; only when pass 1 finds nothing and `findSimilarMatch`
(default `true`) is enabled does pass 2 run, returning the first row satisfying
the mutual-containment test against some candidate with non-empty names; a row
whose combined-name cell splits into fewer than 2 parts derives no name and
matches in neither pass. -/
theorem findMatchingRowByName_two_pass (ws : Worksheet)
    (startRowNumber lastRowNumber : Nat) (nameValues : List NameValue)
    (lookupCols : NameLookupCols) (findSimilarMatchOpt : Option Bool)
    (h : 1 ≤ lastRowNumber) :
    (∀ r, (scanRows ws startRowNumber lastRowNumber).find?
        (exactNameMatchPred (sanitizedCandidates nameValues) lookupCols) = some r →
      findMatchingRowByName ws startRowNumber lastRowNumber nameValues lookupCols
        findSimilarMatchOpt = some r) ∧
    ((scanRows ws startRowNumber lastRowNumber).find?
        (exactNameMatchPred (sanitizedCandidates nameValues) lookupCols) = none →
      findSimilarMatchOpt.getD true = true →
      findMatchingRowByName ws startRowNumber lastRowNumber nameValues lookupCols
        findSimilarMatchOpt =
        (scanRows ws startRowNumber lastRowNumber).find?
          (similarNameMatchPred (sanitizedCandidates nameValues) lookupCols)) ∧
    ((scanRows ws startRowNumber lastRowNumber).find?
        (exactNameMatchPred (sanitizedCandidates nameValues) lookupCols) = none →
      findSimilarMatchOpt = some false →
      findMatchingRowByName ws startRowNumber lastRowNumber nameValues lookupCols
        findSimilarMatchOpt = none) ∧
    (∀ (row : Row) (nameCol : String) (ord : NameOrder) (delim : Option String)
        (s : String),
      lookupCols = NameLookupCols.combinedCol nameCol ord delim →
      sanitizeText (cellLookupText row nameCol) uppercaseOnlyOpts = some s → ¬s = "" →
      (jsSplitString s (delim.getD " ")).length ≤ 1 →
      exactNameMatchPred (sanitizedCandidates nameValues) lookupCols row = false ∧
      similarNameMatchPred (sanitizedCandidates nameValues) lookupCols row = false) := by
  refine ⟨?_, ?_, ?_, ?_⟩
  · intro r hr
    rw [findMatchingRowByName_eq_onRows ws startRowNumber lastRowNumber nameValues
      lookupCols findSimilarMatchOpt h]
    unfold findMatchingRowByNameOnRows
    rw [hr]
  · intro hnone hsim
    rw [findMatchingRowByName_eq_onRows ws startRowNumber lastRowNumber nameValues
      lookupCols findSimilarMatchOpt h]
    unfold findMatchingRowByNameOnRows
    rw [hnone, if_pos hsim]
  · intro hnone hfalse
    rw [findMatchingRowByName_eq_onRows ws startRowNumber lastRowNumber nameValues
      lookupCols findSimilarMatchOpt h]
    unfold findMatchingRowByNameOnRows
    rw [hnone, hfalse]
    rfl
  · intro row nameCol ord delim s hcols hsan hne hlen
    subst hcols
    have hgt : ¬((jsSplitString s (delim.getD " ")).length > 1) := by omega
    constructor
    · simp [exactNameMatchPred, rowNamesForMatch, hsan, hne, hgt, optFalsy]
    · simp [similarNameMatchPred, rowNamesForMatch, hsan, hne, hgt, optFalsy]

theorem findMatchingRowByName_two_pass_witness :
    1 ≤ 1 ∧
    (findMatchingRowByName wsNameMatchDemo 2 1
      [{ firstName := some "JOHN", lastName := some "DOE" }]
      (NameLookupCols.combinedCol "A" NameOrder.lastNameFirstName (some ", "))
      none).map Row.number = some 2 := by
  constructor
  · decide
  · have h := (findMatchingRowByName_two_pass wsNameMatchDemo 2 1
      [{ firstName := some "JOHN", lastName := some "DOE" }]
      (NameLookupCols.combinedCol "A" NameOrder.lastNameFirstName (some ", ")) none
      (by decide)).1 (wsNameMatchDemo.getRow 2) (by rfl)
    rw [h]
    rfl

/-- C4 (code bug demonstration): `findMatchingRowByName` sanitizes candidate
and row names with the object literal `{ uppercase: true }`, which replaces the
whole default options object and thereby disables the documented per-field
default `removeSpecialChars = true`: "O'Brien" keeps its apostrophe, compares
unequal to the row cell "OBRIEN", and no row is matched — although under the
documented defaults the apostrophe would be stripped and the names would
compare equal. -/
theorem findMatchingRowByName_no_special_strip :
    sanitizeText (some "O'Brien") uppercaseOnlyOpts = some "O'BRIEN" ∧
    sanitizeText (some "OBRIEN") uppercaseOnlyOpts = some "OBRIEN" ∧
    sanitizeText (some "O'Brien") defaultSanitizeTextOpts = some "OBRIEN" ∧
    (findMatchingRowByName wsObrienDemo 1 1
      [{ firstName := some "Ann", lastName := some "O'Brien" }]
      (NameLookupCols.separateCols "A" "B") none).map Row.number = none :=
  ⟨by decide, by decide, by decide, by decide⟩

/-- C5: `findLastRowInRecordSet` returns the row numbered one less than the
first row in range whose sanitized lookup value differs from `lookupValue` (or,
under `lookupCondition`, is empty or fails the condition), and the row numbered
`lastRowNumber` when no such row exists in range. -/
theorem findLastRowInRecordSet_boundary (ws : Worksheet)
    (startRowNumber lastRowNumber : Nat) (lookupCol : String)
    (lookupValue : Option String) (lookupCondition : Option (String → Bool))
    (h : startRowNumber ≤ lastRowNumber) :
    (∀ r, (scanRows ws startRowNumber (lastRowNumber - startRowNumber + 1)).find?
        (recordSetBreakPred lookupCol lookupValue lookupCondition) = some r →
      (findLastRowInRecordSet ws startRowNumber lastRowNumber lookupCol lookupValue
        lookupCondition).map Row.number = some (r.number - 1)) ∧
    ((scanRows ws startRowNumber (lastRowNumber - startRowNumber + 1)).find?
        (recordSetBreakPred lookupCol lookupValue lookupCondition) = none →
      (findLastRowInRecordSet ws startRowNumber lastRowNumber lookupCol lookupValue
        lookupCondition).map Row.number = some lastRowNumber) ∧
    (∀ row, lookupCondition = none →
      recordSetBreakPred lookupCol lookupValue lookupCondition row =
        (sanitizeText (cellLookupText row lookupCol) defaultSanitizeTextOpts !=
          lookupValue)) ∧
    (∀ row cond, lookupCondition = some cond →
      recordSetBreakPred lookupCol lookupValue lookupCondition row =
        (match sanitizeText (cellLookupText row lookupCol) defaultSanitizeTextOpts with
         | none => true
         | some s => s == "" || !cond s)) := by
  refine ⟨?_, ?_, ?_, ?_⟩
  · intro r hr
    rw [findLastRowInRecordSet_eq_onRows ws startRowNumber lastRowNumber lookupCol
      lookupValue lookupCondition h]
    unfold findLastRowInRecordSetOnRows
    rw [hr]
    rfl
  · intro hnone
    rw [findLastRowInRecordSet_eq_onRows ws startRowNumber lastRowNumber lookupCol
      lookupValue lookupCondition h]
    unfold findLastRowInRecordSetOnRows
    rw [hnone]
    rfl
  · intro row hc
    subst hc
    rfl
  · intro row cond hc
    subst hc
    rfl

theorem findLastRowInRecordSet_boundary_witness :
    5 ≤ 10 ∧
    (findLastRowInRecordSet wsRecordSetDemo 5 10 "A" (some "100") none).map Row.number =
      some 9 := by
  constructor
  · decide
  · exact (findLastRowInRecordSet_boundary wsRecordSetDemo 5 10 "A" (some "100") none
      (by decide)).1 (wsRecordSetDemo.getRow 10) (by rfl)

/-- C6 (code bug demonstration): the matchers pass `lastRowNumber` as the
`count` argument of `getRows(start, count)`, so with `startRowNumber = 2` and
`lastRowNumber = 3` the scanned window is rows 2, 3 and 4, and
`findMatchingRowByName` returns row 4 — outside the caller-supplied range
[2, 3] that the function's own parameter documentation promises to search. -/
theorem findMatchingRowByName_scans_beyond_range :
    (findMatchingRowByName wsNameRangeDemo 2 3
      [{ firstName := some "JOHN", lastName := some "DOE" }]
      (NameLookupCols.separateCols "A" "B") none).map Row.number = some 4 ∧
    scanRows wsNameRangeDemo 2 3 =
      [wsNameRangeDemo.getRow 2, wsNameRangeDemo.getRow 3, wsNameRangeDemo.getRow 4] ∧
    3 < 4 :=
  ⟨by decide, by rfl, by decide⟩
